import Mathlib

set_option maxHeartbeats 1000000

/-
Verification development for the hyperliquid-indexer repository.

Shallow embedding of src/database-fast.ts (class FastHyperliquidDatabase)
and the relevant parts of src/indexer.ts (class HyperliquidIndexer).

Modelling conventions:
- TS numbers are modelled as Int; no claim under study depends on
  fractional arithmetic, so float-valued fields (prices, voting power,
  uptime, equity) are carried as Int.
- JS Map objects are modelled as functions to Option (get/set/has/clear
  are the only operations the code performs on them).
- JS object identity (in-place mutation observed through aliases, as in
  Object.assign in insertValidator/insertVault) is modelled by value
  substitution: every stored occurrence equal to the mutated object is
  replaced.  In reachable states the collection entry, the index value
  and any recent-view entry for an address are the same object, and
  distinct records differ in their fields, so value equality coincides
  with identity there.
- Date.now() is passed explicitly: operations that read the clock take a
  parameter `now` holding Math.floor(Date.now() / 1000), i.e. epoch
  seconds.
- Persistence (scheduleSave / flush / the dirty flag) is I/O and is not
  modelled; scheduleSave() calls in the source are simply dropped.
- JS Array.prototype.sort with comparator (a, b) => keyB - keyA is a
  stable descending sort; it is modelled by the stable insertion sort
  sortByDesc below.  The in-place reordering getBlocks performs on
  data.blocks permutes the same elements and is not observed by any
  claim, so getBlocks is modelled as a pure read.
-/

/-- Entity record per src/database.ts usage sites (market snapshot, one
live row per symbol). -/
structure MarketData where
  id : Option Nat
  symbol : String
  price : Int
  volume24h : Int
  change24h : Int
  timestamp : Int
  deriving DecidableEq

/-- Trade entity; natural key is the (symbol, timestamp, txHash) triple. -/
structure Trade where
  id : Option Nat
  symbol : String
  price : Int
  size : Int
  side : String
  timestamp : Int
  txHash : String
  deriving DecidableEq

/-- Order book snapshot (kept in the store but untouched by the claims
and by clearOldData). -/
structure OrderBook where
  id : Option Nat
  symbol : String
  timestamp : Int
  deriving DecidableEq

/-- Block entity, keyed by blockNumber. -/
structure BlockData where
  id : Option Nat
  blockNumber : Int
  blockHash : String
  timestamp : Int
  txCount : Int
  proposer : String
  data : String
  deriving DecidableEq

/-- Transaction entity, keyed by hash; blockHash may be the empty string
until backfilled. -/
structure HyperliquidTransaction where
  id : Option Nat
  hash : String
  blockNumber : Int
  blockHash : String
  timestamp : Int
  user : String
  actionType : String
  actionData : String
  error : Option String
  data : String
  deriving DecidableEq

/-- Validator entity, keyed by address. -/
structure Validator where
  id : Option Nat
  address : String
  votingPower : Int
  status : String
  uptime : Int
  timestamp : Int
  data : String
  deriving DecidableEq

/-- Vault entity, keyed by address. -/
structure Vault where
  id : Option Nat
  address : String
  name : String
  equity : Int
  totalDeposits : Int
  totalWithdrawals : Int
  timestamp : Int
  data : String
  deriving DecidableEq

/-- Transfer entity, keyed by hash.  The TS fields `from` and `to` are
renamed fromAddr / toAddr (Lean keyword clash). -/
structure Transfer where
  id : Option Nat
  hash : String
  blockNumber : Int
  timestamp : Int
  fromAddr : String
  toAddr : String
  token : String
  amount : Int
  data : String
  deriving DecidableEq

/-- Functional model of a JS Map: set overwrites, get returns Option. -/
def mapSet {κ α : Type} [DecidableEq κ] (m : κ → Option α) (k : κ) (v : α) :
    κ → Option α :=
  fun k' => if k' = k then some v else m k'

/-- Functional model of rebuilding a JS Map by iterating `set` over a
list (for-loops in buildIndexes / clearOldData): the last element with a
given key wins, i.e. the first match in the reversed list. -/
def buildMap {κ α : Type} [DecidableEq κ] (key : α → κ) (xs : List α) :
    κ → Option α :=
  fun k => xs.reverse.find? (fun x => decide (key x = k))

/-- The seconds/milliseconds disambiguation the source applies in some
call sites: `if (ts > 1e12) ts = Math.floor(ts / 1000)`. -/
def normTs (ts : Int) : Int :=
  if ts > 1000000000000 then ts / 1000 else ts

/-- One step of the stable descending insertion sort. -/
def insKeyDesc {α : Type} (key : α → Int) (x : α) : List α → List α
  | [] => [x]
  | y :: ys => if key y ≤ key x then x :: y :: ys else y :: insKeyDesc key x ys

/-- Stable sort, descending by `key`: the model of the JS
`sort((a, b) => key(b) - key(a))` calls. -/
def sortByDesc {α : Type} (key : α → Int) : List α → List α
  | [] => []
  | x :: xs => insKeyDesc key x (sortByDesc key xs)

/-- Model of JS Array.prototype.findIndex: index of the first match, or
none (the source's -1). -/
def jsFindIndex {α : Type} (p : α → Bool) : List α → Option Nat
  | [] => none
  | x :: xs => if p x then some 0 else (jsFindIndex p xs).map (· + 1)

/-- The DatabaseData record plus the in-memory indexes and recent-view
caches of FastHyperliquidDatabase (src/database-fast.ts lines 5-45),
flattened into one state record. -/
structure Store where
  markets : List MarketData
  trades : List Trade
  orderbooks : List OrderBook
  blocks : List BlockData
  hyperliquidTransactions : List HyperliquidTransaction
  validators : List Validator
  vaults : List Vault
  transfers : List Transfer
  nextIdMarkets : Nat
  nextIdTrades : Nat
  nextIdOrderbooks : Nat
  nextIdBlocks : Nat
  nextIdHyperliquidTransactions : Nat
  nextIdValidators : Nat
  nextIdVaults : Nat
  nextIdTransfers : Nat
  blocksByNumber : Int → Option BlockData
  transactionsByHash : String → Option HyperliquidTransaction
  marketsBySymbol : String → Option MarketData
  validatorsByAddress : String → Option Validator
  vaultsByAddress : String → Option Vault
  transfersByHash : String → Option Transfer
  recentBlocks : List BlockData
  recentTransactions : List HyperliquidTransaction
  recentValidators : List Validator
  recentVaults : List Vault
  recentTransfers : List Transfer

/-- The defaultData state of loadData (src/database-fast.ts lines 59-78)
with freshly built (empty) indexes and views. -/
def emptyStore : Store where
  markets := []
  trades := []
  orderbooks := []
  blocks := []
  hyperliquidTransactions := []
  validators := []
  vaults := []
  transfers := []
  nextIdMarkets := 1
  nextIdTrades := 1
  nextIdOrderbooks := 1
  nextIdBlocks := 1
  nextIdHyperliquidTransactions := 1
  nextIdValidators := 1
  nextIdVaults := 1
  nextIdTransfers := 1
  blocksByNumber := fun _ => none
  transactionsByHash := fun _ => none
  marketsBySymbol := fun _ => none
  validatorsByAddress := fun _ => none
  vaultsByAddress := fun _ => none
  transfersByHash := fun _ => none
  recentBlocks := []
  recentTransactions := []
  recentValidators := []
  recentVaults := []
  recentTransfers := []

/-- updateRecentBlocks (src/database-fast.ts lines 259-275): two-hour
lookback, one-hour lookahead, seconds/ms normalization applied to both
filter and sort key. -/
def Store.updateRecentBlocks (s : Store) (now : Int) : Store :=
  let twoHoursAgo := now - 2 * 3600
  { s with recentBlocks :=
      (sortByDesc (fun b => normTs b.timestamp)
        (s.blocks.filter
          (fun b => decide (normTs b.timestamp ≥ twoHoursAgo ∧
                            normTs b.timestamp ≤ now + 3600)))) }

/-- updateRecentTransactions (lines 323-329): one-hour window on the raw
timestamp, no normalization. -/
def Store.updateRecentTransactions (s : Store) (now : Int) : Store :=
  let oneHourAgo := now - 3600
  { s with recentTransactions :=
      (sortByDesc (fun tx => tx.timestamp)
        (s.hyperliquidTransactions.filter
          (fun tx => decide (tx.timestamp ≥ oneHourAgo ∧
                             tx.timestamp ≤ now + 3600)))) }

/-- insertMarketData (lines 197-216): replace-whole upsert keyed by
symbol.  If the index hits but findIndex misses, control falls through
to the append path, as in the source. -/
def Store.insertMarketData (s : Store) (d : MarketData) : Store :=
  let addNew : Store :=
    let newData : MarketData := { d with id := some s.nextIdMarkets }
    { s with markets := s.markets ++ [newData]
             marketsBySymbol := mapSet s.marketsBySymbol d.symbol newData
             nextIdMarkets := s.nextIdMarkets + 1 }
  match s.marketsBySymbol d.symbol with
  | some existing =>
    match jsFindIndex (fun m => decide (m.id = existing.id)) s.markets with
    | some index =>
      let updated : MarketData := { d with id := existing.id }
      { s with markets := s.markets.set index updated
               marketsBySymbol := mapSet s.marketsBySymbol d.symbol updated }
    | none => addNew
  | none => addNew

/-- insertBlock (lines 229-257): replace-whole upsert keyed by
blockNumber; both paths refresh the recent-blocks view. -/
def Store.insertBlock (s : Store) (block : BlockData) (now : Int) : Store :=
  let addNew : Store :=
    let newBlock : BlockData := { block with id := some s.nextIdBlocks }
    Store.updateRecentBlocks
      { s with blocks := s.blocks ++ [newBlock]
               blocksByNumber := mapSet s.blocksByNumber block.blockNumber newBlock
               nextIdBlocks := s.nextIdBlocks + 1 } now
  match s.blocksByNumber block.blockNumber with
  | some existing =>
    match jsFindIndex (fun b => decide (b.id = existing.id)) s.blocks with
    | some index =>
      let updated : BlockData := { block with id := existing.id }
      Store.updateRecentBlocks
        { s with blocks := s.blocks.set index updated
                 blocksByNumber := mapSet s.blocksByNumber block.blockNumber updated } now
    | none => addNew
  | none => addNew

/-- getLatestBlock (lines 277-286): head of the recent view when
non-empty, otherwise the stored block with the greatest blockNumber. -/
def pickLatest (latest block : BlockData) : BlockData :=
  if block.blockNumber > latest.blockNumber then block else latest

def Store.getLatestBlock (s : Store) : Option BlockData :=
  match s.recentBlocks with
  | b :: _ => some b
  | [] =>
    match s.blocks with
    | [] => none
    | b :: bs => some (bs.foldl pickLatest b)

/-- getBlocks (lines 288-297): the recent view when non-empty, otherwise
the whole collection sorted by blockNumber descending; both sliced. -/
def Store.getBlocks (s : Store) (limit : Nat) : List BlockData :=
  if s.recentBlocks.length > 0 then
    s.recentBlocks.take limit
  else
    (sortByDesc (fun b => b.blockNumber) s.blocks).take limit

/-- insertHyperliquidTransaction (lines 300-321): replace-whole upsert
keyed by hash. -/
def Store.insertHyperliquidTransaction (s : Store) (tx : HyperliquidTransaction)
    (now : Int) : Store :=
  let addNew : Store :=
    let newTx : HyperliquidTransaction :=
      { tx with id := some s.nextIdHyperliquidTransactions }
    Store.updateRecentTransactions
      { s with hyperliquidTransactions := s.hyperliquidTransactions ++ [newTx]
               transactionsByHash := mapSet s.transactionsByHash tx.hash newTx
               nextIdHyperliquidTransactions := s.nextIdHyperliquidTransactions + 1 } now
  match s.transactionsByHash tx.hash with
  | some existing =>
    match jsFindIndex (fun t => decide (t.id = existing.id))
        s.hyperliquidTransactions with
    | some index =>
      let updated : HyperliquidTransaction := { tx with id := existing.id }
      Store.updateRecentTransactions
        { s with hyperliquidTransactions := s.hyperliquidTransactions.set index updated
                 transactionsByHash := mapSet s.transactionsByHash tx.hash updated } now
    | none => addNew
  | none => addNew

/-- insertTrade (lines 349-365): append-only, silently dropped when the
(symbol, timestamp, txHash) composite key already occurs. -/
def Store.insertTrade (s : Store) (trade : Trade) : Store :=
  if s.trades.any (fun t => decide (t.symbol = trade.symbol ∧
      t.timestamp = trade.timestamp ∧ t.txHash = trade.txHash)) then
    s
  else
    { s with trades := s.trades ++ [{ trade with id := some s.nextIdTrades }]
             nextIdTrades := s.nextIdTrades + 1 }

/-- The recent-cache update block shared by insertValidator
(lines 418-429): only a lower window bound is checked; an existing view
entry for the address is overwritten with the incoming object, otherwise
the incoming object is appended; the view is then re-sorted (raw
timestamps), all inside the window test. -/
def updateValidatorRecentCache (s : Store) (v : Validator) (now : Int) : Store :=
  if v.timestamp ≥ now - 3600 then
    match jsFindIndex (fun w => decide (w.address = v.address)) s.recentValidators with
    | some idx =>
      { s with recentValidators :=
          (sortByDesc (fun w => w.timestamp) (s.recentValidators.set idx v)) }
    | none =>
      { s with recentValidators :=
          (sortByDesc (fun w => w.timestamp) (s.recentValidators ++ [v])) }
  else s

/-- Object.assign(existing, validator): every own property of the
incoming record overwrites the existing one; callers build validators
without an id, and an absent id leaves the stored id in place. -/
def objAssignValidator (existing incoming : Validator) : Validator :=
  { id := match incoming.id with
          | some i => some i
          | none => existing.id
    address := incoming.address
    votingPower := incoming.votingPower
    status := incoming.status
    uptime := incoming.uptime
    timestamp := incoming.timestamp
    data := incoming.data }

/-- insertValidator (lines 406-432).  The existing path mutates the
stored object in place via Object.assign; the substitution applies the
mutation to every alias (collection entry, index value, recent view). -/
def Store.insertValidator (s : Store) (v : Validator) (now : Int) : Store :=
  match s.validatorsByAddress v.address with
  | some existing =>
    let merged := objAssignValidator existing v
    let subst : Validator → Validator := fun w => if w = existing then merged else w
    let s1 : Store :=
      { s with validators := s.validators.map subst
               validatorsByAddress := fun a => (s.validatorsByAddress a).map subst
               recentValidators := s.recentValidators.map subst }
    updateValidatorRecentCache s1 v now
  | none =>
    let nv : Validator := { v with id := some s.nextIdValidators }
    let s1 : Store :=
      { s with validators := s.validators ++ [nv]
               validatorsByAddress := mapSet s.validatorsByAddress v.address nv
               nextIdValidators := s.nextIdValidators + 1 }
    updateValidatorRecentCache s1 nv now

/-- getValidators (lines 434-436). -/
def Store.getValidators (s : Store) (limit : Nat) : List Validator :=
  s.recentValidators.take limit

/-- Recent-cache update block of insertVault (lines 455-466), mirror of
the validator one. -/
def updateVaultRecentCache (s : Store) (v : Vault) (now : Int) : Store :=
  if v.timestamp ≥ now - 3600 then
    match jsFindIndex (fun w => decide (w.address = v.address)) s.recentVaults with
    | some idx =>
      { s with recentVaults :=
          (sortByDesc (fun w => w.timestamp) (s.recentVaults.set idx v)) }
    | none =>
      { s with recentVaults :=
          (sortByDesc (fun w => w.timestamp) (s.recentVaults ++ [v])) }
  else s

/-- Object.assign(existing, vault), as for validators. -/
def objAssignVault (existing incoming : Vault) : Vault :=
  { id := match incoming.id with
          | some i => some i
          | none => existing.id
    address := incoming.address
    name := incoming.name
    equity := incoming.equity
    totalDeposits := incoming.totalDeposits
    totalWithdrawals := incoming.totalWithdrawals
    timestamp := incoming.timestamp
    data := incoming.data }

/-- insertVault (lines 443-469). -/
def Store.insertVault (s : Store) (v : Vault) (now : Int) : Store :=
  match s.vaultsByAddress v.address with
  | some existing =>
    let merged := objAssignVault existing v
    let subst : Vault → Vault := fun w => if w = existing then merged else w
    let s1 : Store :=
      { s with vaults := s.vaults.map subst
               vaultsByAddress := fun a => (s.vaultsByAddress a).map subst
               recentVaults := s.recentVaults.map subst }
    updateVaultRecentCache s1 v now
  | none =>
    let nv : Vault := { v with id := some s.nextIdVaults }
    let s1 : Store :=
      { s with vaults := s.vaults ++ [nv]
               vaultsByAddress := mapSet s.vaultsByAddress v.address nv
               nextIdVaults := s.nextIdVaults + 1 }
    updateVaultRecentCache s1 nv now

/-- insertTransfer (lines 480-502): no-op when the hash is indexed;
otherwise append, index, and conditionally add to the recent view
(lower window bound only), then sort and cap the view at 1000. -/
def Store.insertTransfer (s : Store) (transfer : Transfer) (now : Int) : Store :=
  match s.transfersByHash transfer.hash with
  | some _ => s
  | none =>
    let nt : Transfer := { transfer with id := some s.nextIdTransfers }
    let s1 : Store :=
      { s with transfers := s.transfers ++ [nt]
               transfersByHash := mapSet s.transfersByHash transfer.hash nt
               nextIdTransfers := s.nextIdTransfers + 1 }
    if nt.timestamp ≥ now - 3600 then
      let r := sortByDesc (fun t => t.timestamp) (s1.recentTransfers ++ [nt])
      { s1 with recentTransfers := if r.length > 1000 then r.take 1000 else r }
    else s1

/-- buildIndexes (lines 116-172): rebuild every lookup map from its
collection (loop of Map.set, last element with a key wins) and every
recent view as a one-hour-window filter over raw timestamps, sorted
newest-first by raw timestamp. -/
def Store.buildIndexes (s : Store) (now : Int) : Store :=
  let oneHourAgo := now - 3600
  { s with
    blocksByNumber := buildMap (fun b => b.blockNumber) s.blocks
    transactionsByHash := buildMap (fun tx => tx.hash) s.hyperliquidTransactions
    marketsBySymbol := buildMap (fun m => m.symbol) s.markets
    validatorsByAddress := buildMap (fun v => v.address) s.validators
    vaultsByAddress := buildMap (fun v => v.address) s.vaults
    transfersByHash := buildMap (fun t => t.hash) s.transfers
    recentBlocks :=
      (sortByDesc (fun b => b.timestamp)
        (s.blocks.filter (fun b => decide (b.timestamp ≥ oneHourAgo ∧
                                           b.timestamp ≤ now + 3600))))
    recentTransactions :=
      (sortByDesc (fun tx => tx.timestamp)
        (s.hyperliquidTransactions.filter
          (fun tx => decide (tx.timestamp ≥ oneHourAgo ∧
                             tx.timestamp ≤ now + 3600))))
    recentValidators :=
      (sortByDesc (fun v => v.timestamp)
        (s.validators.filter (fun v => decide (v.timestamp ≥ oneHourAgo ∧
                                               v.timestamp ≤ now + 3600))))
    recentVaults :=
      (sortByDesc (fun v => v.timestamp)
        (s.vaults.filter (fun v => decide (v.timestamp ≥ oneHourAgo ∧
                                           v.timestamp ≤ now + 3600))))
    recentTransfers :=
      (sortByDesc (fun t => t.timestamp)
        (s.transfers.filter (fun t => decide (t.timestamp ≥ oneHourAgo ∧
                                              t.timestamp ≤ now + 3600)))) }

/-- clearOldData (lines 549-593): filter five collections by the raw
timestamp against the cutoff (markets, trades and orderbooks are never
filtered), rebuild the per-collection maps inline, then rebuild
everything via buildIndexes.  Both clock reads happen within one call,
modelled by the single parameter `now` (epoch seconds).  Returns the
store plus the removed-blocks and removed-transactions counts. -/
def Store.clearOldData (s : Store) (hoursOld : Int) (now : Int) :
    Store × Nat × Nat :=
  let cutoffTime := now - hoursOld * 3600
  let blocksBefore := s.blocks.length
  let blocks' := s.blocks.filter (fun b => decide (b.timestamp ≥ cutoffTime))
  let txsBefore := s.hyperliquidTransactions.length
  let txs' := s.hyperliquidTransactions.filter
    (fun tx => decide (tx.timestamp ≥ cutoffTime))
  let validators' := s.validators.filter (fun v => decide (v.timestamp ≥ cutoffTime))
  let vaults' := s.vaults.filter (fun v => decide (v.timestamp ≥ cutoffTime))
  let transfers' := s.transfers.filter (fun t => decide (t.timestamp ≥ cutoffTime))
  let s1 : Store :=
    { s with blocks := blocks'
             hyperliquidTransactions := txs'
             validators := validators'
             vaults := vaults'
             transfers := transfers'
             blocksByNumber := buildMap (fun b => b.blockNumber) blocks'
             transactionsByHash := buildMap (fun tx => tx.hash) txs'
             validatorsByAddress := buildMap (fun v => v.address) validators'
             vaultsByAddress := buildMap (fun v => v.address) vaults'
             transfersByHash := buildMap (fun t => t.hash) transfers' }
  let s2 := s1.buildIndexes now
  (s2, blocksBefore - blocks'.length, txsBefore - txs'.length)

/-- Flat-activity record from the recent-activity source
(HypurrscanTransaction, src/hypurrscan-client).  action.type is optional;
the two JSON.stringify results are carried as opaque strings. -/
structure HypurrscanTx where
  time : Int
  user : String
  actionType : Option String
  actionJson : String
  block : Int
  hash : String
  error : Option String
  raw : String
  deriving DecidableEq

/-- The known-blocks snapshot of indexHypurrscanTransactions
(src/indexer.ts lines 115-119): a map blockNumber to blockHash built by
iterating getBlocks(10000) — which yields only the recent view whenever
that view is non-empty. -/
def existingBlocksMap (s : Store) : Int → Option String :=
  fun n => (buildMap (fun b => b.blockNumber) (s.getBlocks 10000) n).map
    (fun b => b.blockHash)

/-- Conversion of one flat-activity record (lines 123-137):
`existingBlocks.get(hypTx.block) || ''` yields the empty string both for
a missing entry and for a stored empty hash. -/
def convertHypurrscanTx (existingBlocks : Int → Option String)
    (h : HypurrscanTx) : HyperliquidTransaction :=
  { id := none
    hash := h.hash
    blockNumber := h.block
    blockHash := (existingBlocks h.block).getD ""
    timestamp := h.time
    user := h.user
    actionType := h.actionType.getD "unknown"
    actionData := h.actionJson
    error := h.error
    data := h.raw }

/-- Phase one of indexHypurrscanTransactions (lines 101-154): snapshot
the known blocks once, then convert and upsert every record.  The
needs-block-fetch bookkeeping, the inter-record delays, and the
block-fetch/backfill phase (lines 156-201) are separate behaviour not
needed by the claims settled here. -/
def ingestFlatActivity (s : Store) (txs : List HypurrscanTx) (now : Int) :
    Store :=
  let existingBlocks := existingBlocksMap s
  txs.foldl
    (fun st h => st.insertHyperliquidTransaction
      (convertHypurrscanTx existingBlocks h) now) s

/-- Outcome of one fetchBlock probe by the height source
(sdkClient.getBlockDetails): a block with its blockTime, a null result
(not yet produced), an archived-block error, or any other error. -/
inductive FetchResult where
  | success (blockTime : Int)
  | nullResult
  | archivedErr
  | otherErr
  deriving DecidableEq

/-- The probe loop of getLatestBlockHeight (src/indexer.ts lines
350-378), fuelled by the remaining probes (30 at entry): a fresh success
advances the candidate frontier and continues, every other outcome
(stale success, null, archived error, other error) stops.  Returns the
frontier together with the number of fetch calls performed. -/
def probeAux (fetch : Int → FetchResult) (now : Int) :
    Nat → Int → Int → Nat → Int × Nat
  | 0, _, cur, calls => (cur, calls)
  | rem + 1, testBlock, cur, calls =>
    match fetch testBlock with
    | .success blockTime =>
      if now - blockTime < 2 * 3600 ∧ now - blockTime ≥ -3600 then
        probeAux fetch now rem (testBlock + 1) testBlock (calls + 1)
      else (cur, calls + 1)
    | .nullResult => (cur, calls + 1)
    | .archivedErr => (cur, calls + 1)
    | .otherErr => (cur, calls + 1)

/-- The probe starting at startFrom: heights startFrom+1 .. startFrom+30
are candidates; calls counted from zero. -/
def probeFrom (fetch : Int → FetchResult) (now startFrom : Int) : Int × Nat :=
  probeAux fetch now 30 (startFrom + 1) startFrom 0

/-- getLatestBlockHeight (lines 319-389): derive startFrom from the
stored latest block when it is fresh and above the floor, else the safe
default, then run the probe.  Fetch failures are encoded in FetchResult,
so the outer try/catch fallback (lines 381-388) is unreachable here. -/
def getLatestBlockHeight (fetch : Int → FetchResult) (s : Store) (now : Int) :
    Int :=
  let startFrom0 : Int :=
    match s.getLatestBlock with
    | some b =>
      let blockTimestamp := normTs b.timestamp
      let blockAge := now - blockTimestamp
      if blockAge < 2 * 3600 ∧ blockAge ≥ 0 ∧ b.blockNumber > 822800000 then
        b.blockNumber
      else 0
    | none => 0
  let startFrom := if startFrom0 = 0 then 822890000 else startFrom0
  (probeFrom fetch now startFrom).1

/-- try/catch, on the Except encoding of a TS async function body. -/
def jsTryCatch {ε α : Type} (body : Except ε α) (handler : ε → Except ε α) :
    Except ε α :=
  match body with
  | .ok a => .ok a
  | .error e => handler e

/-- The abstract outcome of each stage body of one sync cycle
(src/indexer.ts index, lines 63-95), covering every combination of
upstream results: each stage body either completes or raises. -/
structure CycleOutcomes where
  cleanupDraw : Bool
  hypurrscan : Except String Unit
  blocksStage : Except String Unit
  marketsStage : Except String Unit
  tradesStage : Except String Unit
  validatorsStage : Except String Unit
  vaultsStage : Except String Unit
  transfersStage : Except String Unit

/-- One stage of the cycle: the stage function wraps its whole body in
try/catch that logs and swallows (e.g. lines 102-208, 212-261, 392-432,
436-489, 493-539, 543-579, 583-624), so the stage completes and is
recorded on the trace whichever way its body went. -/
def runStage (idx : Nat) (body : Except String Unit) (trace : List Nat) :
    Except String (List Nat) :=
  jsTryCatch
    (do
      let _ ← body
      pure (trace ++ [idx]))
    (fun _ => .ok (trace ++ [idx]))

/-- index (lines 63-95): the probabilistic clearOldData(1) (a pure store
operation here, it cannot raise), then the seven stages in order, all
inside one try/catch that logs and swallows.  The trace records which
stages executed. -/
def indexCycle (o : CycleOutcomes) : Except String (List Nat) :=
  jsTryCatch
    (do
      let t0 : List Nat := if o.cleanupDraw then [0] else []
      let t1 ← runStage 1 o.hypurrscan t0
      let t2 ← runStage 2 o.blocksStage t1
      let t3 ← runStage 3 o.marketsStage t2
      let t4 ← runStage 4 o.tradesStage t3
      let t5 ← runStage 5 o.validatorsStage t4
      let t6 ← runStage 6 o.vaultsStage t5
      let t7 ← runStage 7 o.transfersStage t6
      pure t7)
    (fun _ => .ok [])

/-- A per-record loop with try/catch-continue around each record
(indexHypurrscanTransactions lines 121-154 inner loop): a failing record
is skipped, the rest are still processed in order. -/
def processRecords {α β : Type} (f : α → Except String β) : List α → List β
  | [] => []
  | x :: xs =>
    match f x with
    | .ok b => b :: processRecords f xs
    | .error _ => processRecords f xs

/-- Modelled from the spec (data-model invariant on recent views): the
windowed projection `filter(collection, ts in [now-W, now+slack]) sorted
by ts desc`, used to compare the cached views against. -/
def specRecentView {α : Type} (ts : α → Int) (coll : List α)
    (now window slack : Int) : List α :=
  sortByDesc ts (coll.filter (fun x => decide (ts x ≥ now - window ∧
                                               ts x ≤ now + slack)))

/-- A block whose timestamp (epoch seconds) is far outside every recent
window relative to the reference clock 10000 used by the scenarios. -/
def bStale : BlockData :=
  { id := none, blockNumber := 5, blockHash := "0xb", timestamp := 100,
    txCount := 1, proposer := "p", data := "dB" }

/-- A block that is fresh at clock 10000. -/
def bFresh : BlockData :=
  { id := none, blockNumber := 2, blockHash := "0xr", timestamp := 10000,
    txCount := 0, proposer := "q", data := "dR" }

/-- Store holding only the stale block: its recent-blocks view is empty
while the primary collection is not. -/
def sStale : Store := emptyStore.insertBlock bStale 10000

/-- Store holding the stale and the fresh block: the recent-blocks view
holds only the fresh one. -/
def sTwo : Store := sStale.insertBlock bFresh 10000

/-- A transaction already linked to the stale block (in-block ingest gave
it the non-empty blockHash 0xb). -/
def txInBlock : HyperliquidTransaction :=
  { id := none, hash := "h1", blockNumber := 5, blockHash := "0xb",
    timestamp := 10000, user := "u", actionType := "t", actionData := "a",
    error := none, data := "d" }

def c1Store : Store := sTwo.insertHyperliquidTransaction txInBlock 10000

/-- The same transaction as re-reported by the flat-activity source. -/
def flatTx : HypurrscanTx :=
  { time := 10000, user := "u", actionType := some "t", actionJson := "a",
    block := 5, hash := "h1", error := none, raw := "d" }

def c1After : Store := ingestFlatActivity c1Store [flatTx] 10000

/-- A transaction carrying a milliseconds-unit timestamp: normalized it
is about 1.5e9 s (old at clock 2e9), raw it exceeds every cutoff. -/
def msTx : HyperliquidTransaction :=
  { id := none, hash := "m1", blockNumber := 1, blockHash := "",
    timestamp := 1500000000000, user := "u", actionType := "t",
    actionData := "a", error := none, data := "d" }

def c5Now : Int := 2000000000

def c5Store : Store := emptyStore.insertHyperliquidTransaction msTx c5Now

def c5After : Store := (c5Store.clearOldData 1 c5Now).1

/-- The height source of the tip-discovery scenario: heights 100..105
exist with blockTime ts, height 106 and beyond resolve null. -/
def fetchC6 (ts : Int) : Int → FetchResult :=
  fun h => if 100 ≤ h ∧ h ≤ 105 then .success ts else .nullResult

/-- First upsert of a validator: non-default votingPower and uptime. -/
def vOld : Validator :=
  { id := none, address := "a", votingPower := 5, status := "active",
    uptime := 80, timestamp := 10000, data := "d1" }

/-- Second upsert on the same address: votingPower and uptime are present
but carry the default value zero. -/
def vNew : Validator :=
  { id := none, address := "a", votingPower := 0, status := "active",
    uptime := 0, timestamp := 10000, data := "d2" }

def c2Store : Store :=
  (emptyStore.insertValidator vOld 10000).insertValidator vNew 10000

/-- Vault analogues for the merge-claim witness. -/
def vaultOld : Vault :=
  { id := none, address := "w", name := "nm", equity := 9,
    totalDeposits := 4, totalWithdrawals := 1, timestamp := 10000,
    data := "d1" }

def vaultNew : Vault :=
  { id := none, address := "w", name := "", equity := 0,
    totalDeposits := 0, totalWithdrawals := 0, timestamp := 10000,
    data := "d2" }

/-- A transfer dated 100000 seconds into the future of clock 1000000:
it passes the lower window bound of insertTransfer, yet lies beyond the
future-skew allowance of the windowed projection. -/
def futureTransfer : Transfer :=
  { id := none, hash := "t1", blockNumber := 3, timestamp := 1100000,
    fromAddr := "f", toAddr := "g", token := "T", amount := 7, data := "d" }

def c7Now : Int := 1000000

def c7Store : Store := emptyStore.insertTransfer futureTransfer c7Now

/-- Transfer and trade used by the idempotence witness. -/
def trWit : Transfer :=
  { id := none, hash := "tw", blockNumber := 1, timestamp := 10000,
    fromAddr := "f", toAddr := "g", token := "T", amount := 2, data := "d" }

def tdWit : Trade :=
  { id := none, symbol := "BTC", price := 9, size := 2, side := "buy",
    timestamp := 10000, txHash := "xh" }

def c9TransferStore : Store := emptyStore.insertTransfer trWit 10000

def c9TradeStore : Store := emptyStore.insertTrade tdWit

/-- Two payloads per replace-whole type for the double-upsert witness. -/
def bW1 : BlockData :=
  { id := none, blockNumber := 7, blockHash := "ha", timestamp := 50,
    txCount := 1, proposer := "p1", data := "x1" }

def bW2 : BlockData :=
  { id := none, blockNumber := 7, blockHash := "hb", timestamp := 60,
    txCount := 2, proposer := "p2", data := "x2" }

def txW1 : HyperliquidTransaction :=
  { id := none, hash := "k", blockNumber := 7, blockHash := "",
    timestamp := 50, user := "u1", actionType := "t1", actionData := "a1",
    error := none, data := "x1" }

def txW2 : HyperliquidTransaction :=
  { id := none, hash := "k", blockNumber := 8, blockHash := "hb",
    timestamp := 60, user := "u2", actionType := "t2", actionData := "a2",
    error := some "e", data := "x2" }

def mW1 : MarketData :=
  { id := none, symbol := "BTC", price := 10, volume24h := 1,
    change24h := 2, timestamp := 50 }

def mW2 : MarketData :=
  { id := none, symbol := "BTC", price := 11, volume24h := 3,
    change24h := 4, timestamp := 60 }

/-- A combination of stage outcomes with several stage bodies raising. -/
def c8Outcomes : CycleOutcomes :=
  { cleanupDraw := true, hypurrscan := .error "h", blocksStage := .ok (),
    marketsStage := .error "m", tradesStage := .ok (),
    validatorsStage := .ok (), vaultsStage := .error "v",
    transfersStage := .ok () }

/-- A per-record processor that fails exactly on record 2. -/
def c8f : Nat → Except String Nat :=
  fun n => if n = 2 then .error "boom" else .ok n

lemma length_insKeyDesc {α : Type} (key : α → Int) (x : α) (l : List α) :
    (insKeyDesc key x l).length = l.length + 1 := by
  induction l with
  | nil => rfl
  | cons y ys ih =>
    simp only [insKeyDesc]
    split
    · simp
    · simp [ih]

lemma length_sortByDesc {α : Type} (key : α → Int) (l : List α) :
    (sortByDesc key l).length = l.length := by
  induction l with
  | nil => rfl
  | cons x xs ih => simp [sortByDesc, length_insKeyDesc, ih]

lemma filter_false_nil {α : Type} (p : α → Bool) (xs : List α)
    (h : ∀ x ∈ xs, p x = false) : xs.filter p = [] := by
  induction xs with
  | nil => rfl
  | cons a l ih =>
    simp only [List.filter_cons, h a (by simp)]
    exact ih (fun x hx => h x (by simp [hx]))

lemma jsFindIndex_append_last {α : Type} (p : α → Bool) (xs : List α) (y : α)
    (h : ∀ x ∈ xs, p x = false) (hy : p y = true) :
    jsFindIndex p (xs ++ [y]) = some xs.length := by
  induction xs with
  | nil => simp [jsFindIndex, hy]
  | cons a l ih =>
    have ha : p a = false := h a (by simp)
    have ih' := ih (fun x hx => h x (by simp [hx]))
    simp [jsFindIndex, ha, ih']

lemma set_append_last {α : Type} (xs : List α) (y z : α) :
    (xs ++ [y]).set xs.length z = xs ++ [z] := by
  induction xs with
  | nil => rfl
  | cons a l ih => simp [List.set, ih]

lemma buildMap_isSome_iff {κ α : Type} [DecidableEq κ] (key : α → κ)
    (xs : List α) (k : κ) :
    (buildMap key xs k).isSome ↔ ∃ x ∈ xs, key x = k := by
  unfold buildMap
  rw [List.find?_isSome]
  constructor
  · rintro ⟨x, hx, hk⟩
    exact ⟨x, List.mem_reverse.mp hx, of_decide_eq_true hk⟩
  · rintro ⟨x, hx, hk⟩
    exact ⟨x, List.mem_reverse.mpr hx, decide_eq_true hk⟩

lemma foldl_pickLatest (b : BlockData) (l : List BlockData) :
    (l.foldl pickLatest b ∈ b :: l) ∧
    b.blockNumber ≤ (l.foldl pickLatest b).blockNumber ∧
    ∀ x ∈ l, x.blockNumber ≤ (l.foldl pickLatest b).blockNumber := by
  induction l generalizing b with
  | nil => simp
  | cons a l ih =>
    obtain ⟨hmem, hb, hall⟩ := ih (pickLatest b a)
    have hstep : pickLatest b a = a ∨ pickLatest b a = b := by
      unfold pickLatest
      split
      · exact Or.inl rfl
      · exact Or.inr rfl
    have hba : b.blockNumber ≤ (pickLatest b a).blockNumber := by
      unfold pickLatest
      split
      · omega
      · exact le_refl _
    have haa : a.blockNumber ≤ (pickLatest b a).blockNumber := by
      unfold pickLatest
      split
      · exact le_refl _
      · omega
    rw [List.foldl_cons]
    refine ⟨?_, le_trans hba hb, ?_⟩
    · rcases List.mem_cons.mp hmem with h | h
      · rw [h]
        rcases hstep with h2 | h2 <;> rw [h2] <;> simp
      · simp [h]
    · intro x hx
      rcases List.mem_cons.mp hx with rfl | h
      · exact le_trans haa hb
      · exact hall x h

lemma updateRecentBlocks_blocks (s : Store) (now : Int) :
    (s.updateRecentBlocks now).blocks = s.blocks := rfl

lemma updateRecentBlocks_blocksByNumber (s : Store) (now : Int) :
    (s.updateRecentBlocks now).blocksByNumber = s.blocksByNumber := rfl

lemma updateRecentBlocks_nextIdBlocks (s : Store) (now : Int) :
    (s.updateRecentBlocks now).nextIdBlocks = s.nextIdBlocks := rfl

lemma updateRecentTransactions_txs (s : Store) (now : Int) :
    (s.updateRecentTransactions now).hyperliquidTransactions =
      s.hyperliquidTransactions := rfl

lemma updateRecentTransactions_byHash (s : Store) (now : Int) :
    (s.updateRecentTransactions now).transactionsByHash =
      s.transactionsByHash := rfl

lemma updateRecentTransactions_nextId (s : Store) (now : Int) :
    (s.updateRecentTransactions now).nextIdHyperliquidTransactions =
      s.nextIdHyperliquidTransactions := rfl

lemma updValCache_byAddress (s : Store) (v : Validator) (now : Int) :
    (updateValidatorRecentCache s v now).validatorsByAddress =
      s.validatorsByAddress := by
  unfold updateValidatorRecentCache
  split
  · split <;> rfl
  · rfl

lemma updVaultCache_byAddress (s : Store) (v : Vault) (now : Int) :
    (updateVaultRecentCache s v now).vaultsByAddress =
      s.vaultsByAddress := by
  unfold updateVaultRecentCache
  split
  · split <;> rfl
  · rfl

lemma probeAux_step_fresh (fetch : Int → FetchResult) (now : Int) (rem : Nat)
    (t cur : Int) (calls : Nat) (bt : Int) (hf : fetch t = .success bt)
    (ha : now - bt < 2 * 3600) (hb : now - bt ≥ -3600) :
    probeAux fetch now (rem + 1) t cur calls =
      probeAux fetch now rem (t + 1) t (calls + 1) := by
  simp only [probeAux, hf]
  rw [if_pos ⟨ha, hb⟩]

lemma probeAux_step_null (fetch : Int → FetchResult) (now : Int) (rem : Nat)
    (t cur : Int) (calls : Nat) (hf : fetch t = .nullResult) :
    probeAux fetch now (rem + 1) t cur calls = (cur, calls + 1) := by
  simp [probeAux, hf]

lemma insertBlock_new (s : Store) (b : BlockData) (now : Int)
    (h : s.blocksByNumber b.blockNumber = none) :
    (s.insertBlock b now).blocks =
        s.blocks ++ [{ b with id := some s.nextIdBlocks }] ∧
    (s.insertBlock b now).blocksByNumber =
        mapSet s.blocksByNumber b.blockNumber
          { b with id := some s.nextIdBlocks } ∧
    (s.insertBlock b now).nextIdBlocks = s.nextIdBlocks + 1 := by
  unfold Store.insertBlock
  rw [h]
  exact ⟨rfl, rfl, rfl⟩

lemma insertBlock_update (s : Store) (b : BlockData) (now : Int)
    (ex : BlockData) (idx : Nat)
    (h : s.blocksByNumber b.blockNumber = some ex)
    (hfi : jsFindIndex (fun t => decide (t.id = ex.id)) s.blocks = some idx) :
    (s.insertBlock b now).blocks = s.blocks.set idx { b with id := ex.id } := by
  unfold Store.insertBlock
  simp only [h, hfi]
  rfl

lemma insertHypTx_new (s : Store) (tx : HyperliquidTransaction) (now : Int)
    (h : s.transactionsByHash tx.hash = none) :
    (s.insertHyperliquidTransaction tx now).hyperliquidTransactions =
        s.hyperliquidTransactions ++
          [{ tx with id := some s.nextIdHyperliquidTransactions }] ∧
    (s.insertHyperliquidTransaction tx now).transactionsByHash =
        mapSet s.transactionsByHash tx.hash
          { tx with id := some s.nextIdHyperliquidTransactions } ∧
    (s.insertHyperliquidTransaction tx now).nextIdHyperliquidTransactions =
        s.nextIdHyperliquidTransactions + 1 := by
  unfold Store.insertHyperliquidTransaction
  rw [h]
  exact ⟨rfl, rfl, rfl⟩

lemma insertHypTx_update (s : Store) (tx : HyperliquidTransaction) (now : Int)
    (ex : HyperliquidTransaction) (idx : Nat)
    (h : s.transactionsByHash tx.hash = some ex)
    (hfi : jsFindIndex (fun t => decide (t.id = ex.id))
        s.hyperliquidTransactions = some idx) :
    (s.insertHyperliquidTransaction tx now).hyperliquidTransactions =
      s.hyperliquidTransactions.set idx { tx with id := ex.id } := by
  unfold Store.insertHyperliquidTransaction
  simp only [h, hfi]
  rfl

lemma insertMarket_new (s : Store) (d : MarketData)
    (h : s.marketsBySymbol d.symbol = none) :
    (s.insertMarketData d).markets =
        s.markets ++ [{ d with id := some s.nextIdMarkets }] ∧
    (s.insertMarketData d).marketsBySymbol =
        mapSet s.marketsBySymbol d.symbol
          { d with id := some s.nextIdMarkets } ∧
    (s.insertMarketData d).nextIdMarkets = s.nextIdMarkets + 1 := by
  unfold Store.insertMarketData
  rw [h]
  exact ⟨rfl, rfl, rfl⟩

lemma insertMarket_update (s : Store) (d : MarketData)
    (ex : MarketData) (idx : Nat)
    (h : s.marketsBySymbol d.symbol = some ex)
    (hfi : jsFindIndex (fun m => decide (m.id = ex.id)) s.markets = some idx) :
    (s.insertMarketData d).markets = s.markets.set idx { d with id := ex.id } := by
  unfold Store.insertMarketData
  simp only [h, hfi]

/-- Claim C1: once a stored transaction's blockHash is non-empty, no
later operation — in particular no later flat-activity ingest of the
same hash with an empty blockHash — ever makes it empty again.  The code
violates this: indexHypurrscanTransactions snapshots known blocks from
getBlocks(10000), which yields only the recent view when that view is
non-empty, so a re-reported transaction whose block is stored but aged
out of the recent view is converted with blockHash '' and
insertHyperliquidTransaction whole-record-replaces, clearing the stored
non-empty hash.  This theorem evaluates the model at that failing input:
the transaction holds hash 0xb, its block is still stored under number
5, and after the flat re-ingest the stored blockHash is empty. -/
theorem c1_blockhash_cleared_on_flat_reingest :
    (c1Store.transactionsByHash "h1").map (fun t => t.blockHash) =
        some "0xb" ∧
    (c1After.blocksByNumber 5).map (fun b => b.blockHash) = some "0xb" ∧
    (c1After.transactionsByHash "h1").map (fun t => t.blockHash) =
        some "" := by
  decide

/-- Claim C2 counterexample: on the second validator upsert of address
a, the incoming record carries the default values 0 for votingPower and
uptime, yet the stored non-default values 80 and 5 are clobbered to 0
(Object.assign overwrites every present field).  The claim predicts
(80, 5). -/
theorem c2_default_fields_clobber_cex :
    (c2Store.validatorsByAddress "a").map
        (fun v => (v.uptime, v.votingPower)) = some (0, 0) ∧
    ¬ (c2Store.validatorsByAddress "a").map
        (fun v => (v.uptime, v.votingPower)) = some (80, 5) := by
  decide

/-- Claim C2 amended: a Validator or Vault upsert on an existing address
overwrites every field present in the incoming record, including
zero/empty values; only the absent id is preserved (callers build the
incoming records without an id), so the stored record keeps its original
id while all payload fields become the incoming ones. -/
theorem c2_upsert_overwrites_present_fields :
    (∀ (s : Store) (v : Validator) (now : Int) (ex : Validator),
        s.validatorsByAddress v.address = some ex → v.id = none →
        (s.insertValidator v now).validatorsByAddress v.address =
          some { v with id := ex.id }) ∧
    (∀ (s : Store) (v : Vault) (now : Int) (ex : Vault),
        s.vaultsByAddress v.address = some ex → v.id = none →
        (s.insertVault v now).vaultsByAddress v.address =
          some { v with id := ex.id }) := by
  constructor
  · intro s v now ex h hid
    unfold Store.insertValidator
    simp only [h, updValCache_byAddress]
    obtain ⟨vid, va, vp, vs, vu, vt, vd⟩ := v
    simp only at hid
    subst hid
    simp [objAssignValidator]
  · intro s v now ex h hid
    unfold Store.insertVault
    simp only [h, updVaultCache_byAddress]
    obtain ⟨vid, va, vn, ve, vtd, vtw, vt, vd⟩ := v
    simp only at hid
    subst hid
    simp [objAssignVault]

/-- Claim C2 amended witness, at the concrete double-upsert stores. -/
theorem c2_upsert_overwrites_present_fields_witness :
    ((emptyStore.insertValidator vOld 10000).insertValidator vNew
        10000).validatorsByAddress "a" = some { vNew with id := some 1 } ∧
    ((emptyStore.insertVault vaultOld 10000).insertVault vaultNew
        10000).vaultsByAddress "w" = some { vaultNew with id := some 1 } :=
  ⟨c2_upsert_overwrites_present_fields.1 (emptyStore.insertValidator vOld 10000)
      vNew 10000 { vOld with id := some 1 } (by decide) (by decide),
   c2_upsert_overwrites_present_fields.2 (emptyStore.insertVault vaultOld 10000)
      vaultNew 10000 { vaultOld with id := some 1 } (by decide) (by decide)⟩

/-- Claim C3 counterexample: the store holds two blocks, one of them
outside the recent window, so the claim demands at least
min(limit, totalBlocks) = 2 results from getBlocks(2); but the recent
view is non-empty (holding just the fresh block) and getBlocks returns
it alone — 1 block. -/
theorem c3_recent_view_short_cex :
    sTwo.blocks.length = 2 ∧
    (∃ b ∈ sTwo.blocks, normTs b.timestamp < 10000 - 2 * 3600) ∧
    (sTwo.getBlocks 2).length = 1 ∧
    ¬ min 2 sTwo.blocks.length ≤ (sTwo.getBlocks 2).length := by
  decide

/-- Claim C3 amended: only when the recent view is empty does
getBlocks(limit) fall back to the full collection — sorted by
blockNumber (not timestamp) descending and sliced — and then it returns
exactly min(limit, totalBlocks) blocks, never empty while the collection
is non-empty; when the recent view is non-empty the result is the view
sliced, which can be shorter than min(limit, totalBlocks). -/
theorem c3_fallback_when_recent_empty :
    ∀ (s : Store) (limit : Nat), s.recentBlocks = [] →
      s.getBlocks limit =
          (sortByDesc (fun b => b.blockNumber) s.blocks).take limit ∧
      (s.getBlocks limit).length = min limit s.blocks.length := by
  intro s limit h
  unfold Store.getBlocks
  rw [h]
  simp [List.length_take, length_sortByDesc]

/-- Claim C3 amended witness: the store holding only the stale block has
an empty recent view, and getBlocks(2) returns min(2, 1) = 1 block. -/
theorem c3_fallback_when_recent_empty_witness :
    sStale.recentBlocks = [] ∧
    (sStale.getBlocks 2).length = min 2 sStale.blocks.length :=
  ⟨by decide, (c3_fallback_when_recent_empty sStale 2 (by decide)).2⟩

/-- Claim C4: for each replace-whole entity type (Block keyed by
blockNumber, Transaction keyed by hash, MarketSnapshot keyed by symbol),
upserting a fresh natural key twice leaves exactly one live record for
that key, carrying the id assigned at the first insert and the fields of
the second payload. -/
theorem c4_replace_whole_double_upsert :
    (∀ (s : Store) (b1 b2 : BlockData) (now now' : Int),
        b2.blockNumber = b1.blockNumber →
        s.blocksByNumber b1.blockNumber = none →
        (∀ b ∈ s.blocks, ¬ b.blockNumber = b1.blockNumber) →
        (∀ b ∈ s.blocks, ¬ b.id = some s.nextIdBlocks) →
        ((s.insertBlock b1 now).insertBlock b2 now').blocks.filter
            (fun b => decide (b.blockNumber = b1.blockNumber)) =
          [{ b2 with id := some s.nextIdBlocks }]) ∧
    (∀ (s : Store) (t1 t2 : HyperliquidTransaction) (now now' : Int),
        t2.hash = t1.hash →
        s.transactionsByHash t1.hash = none →
        (∀ t ∈ s.hyperliquidTransactions, ¬ t.hash = t1.hash) →
        (∀ t ∈ s.hyperliquidTransactions,
          ¬ t.id = some s.nextIdHyperliquidTransactions) →
        ((s.insertHyperliquidTransaction t1 now).insertHyperliquidTransaction
              t2 now').hyperliquidTransactions.filter
            (fun t => decide (t.hash = t1.hash)) =
          [{ t2 with id := some s.nextIdHyperliquidTransactions }]) ∧
    (∀ (s : Store) (m1 m2 : MarketData),
        m2.symbol = m1.symbol →
        s.marketsBySymbol m1.symbol = none →
        (∀ m ∈ s.markets, ¬ m.symbol = m1.symbol) →
        (∀ m ∈ s.markets, ¬ m.id = some s.nextIdMarkets) →
        ((s.insertMarketData m1).insertMarketData m2).markets.filter
            (fun m => decide (m.symbol = m1.symbol)) =
          [{ m2 with id := some s.nextIdMarkets }]) := by
  refine ⟨?_, ?_, ?_⟩
  · intro s b1 b2 now now' hk hidx hcol hid
    obtain ⟨hb, hm, _⟩ := insertBlock_new s b1 now hidx
    have hlook : (s.insertBlock b1 now).blocksByNumber b2.blockNumber =
        some { b1 with id := some s.nextIdBlocks } := by
      rw [hm, hk]
      simp [mapSet]
    have hfi : jsFindIndex
        (fun t => decide (t.id = ({ b1 with id := some s.nextIdBlocks } :
          BlockData).id)) (s.insertBlock b1 now).blocks =
        some s.blocks.length := by
      rw [hb]
      apply jsFindIndex_append_last
      · intro x hx
        simpa using hid x hx
      · simp
    have h2 := insertBlock_update (s.insertBlock b1 now) b2 now' _ _ hlook hfi
    rw [h2, hb, set_append_last, List.filter_append,
      filter_false_nil _ s.blocks (fun x hx => by simpa using hcol x hx)]
    simp [hk]
  · intro s t1 t2 now now' hk hidx hcol hid
    obtain ⟨hb, hm, _⟩ := insertHypTx_new s t1 now hidx
    have hlook : (s.insertHyperliquidTransaction t1 now).transactionsByHash
        t2.hash =
        some { t1 with id := some s.nextIdHyperliquidTransactions } := by
      rw [hm, hk]
      simp [mapSet]
    have hfi : jsFindIndex
        (fun t => decide (t.id =
          ({ t1 with id := some s.nextIdHyperliquidTransactions } :
            HyperliquidTransaction).id))
        (s.insertHyperliquidTransaction t1 now).hyperliquidTransactions =
        some s.hyperliquidTransactions.length := by
      rw [hb]
      apply jsFindIndex_append_last
      · intro x hx
        simpa using hid x hx
      · simp
    have h2 := insertHypTx_update (s.insertHyperliquidTransaction t1 now) t2
      now' _ _ hlook hfi
    rw [h2, hb, set_append_last, List.filter_append,
      filter_false_nil _ s.hyperliquidTransactions
        (fun x hx => by simpa using hcol x hx)]
    simp [hk]
  · intro s m1 m2 hk hidx hcol hid
    obtain ⟨hb, hm, _⟩ := insertMarket_new s m1 hidx
    have hlook : (s.insertMarketData m1).marketsBySymbol m2.symbol =
        some { m1 with id := some s.nextIdMarkets } := by
      rw [hm, hk]
      simp [mapSet]
    have hfi : jsFindIndex
        (fun m => decide (m.id = ({ m1 with id := some s.nextIdMarkets } :
          MarketData).id)) (s.insertMarketData m1).markets =
        some s.markets.length := by
      rw [hb]
      apply jsFindIndex_append_last
      · intro x hx
        simpa using hid x hx
      · simp
    have h2 := insertMarket_update (s.insertMarketData m1) m2 _ _ hlook hfi
    rw [h2, hb, set_append_last, List.filter_append,
      filter_false_nil _ s.markets (fun x hx => by simpa using hcol x hx)]
    simp [hk]

/-- Claim C4 witness at the empty store, for all three entity types. -/
theorem c4_replace_whole_double_upsert_witness :
    ((emptyStore.insertBlock bW1 5).insertBlock bW2 6).blocks.filter
        (fun b => decide (b.blockNumber = bW1.blockNumber)) =
      [{ bW2 with id := some 1 }] ∧
    ((emptyStore.insertHyperliquidTransaction txW1
          5).insertHyperliquidTransaction txW2
        6).hyperliquidTransactions.filter
        (fun t => decide (t.hash = txW1.hash)) =
      [{ txW2 with id := some 1 }] ∧
    ((emptyStore.insertMarketData mW1).insertMarketData mW2).markets.filter
        (fun m => decide (m.symbol = mW1.symbol)) =
      [{ mW2 with id := some 1 }] :=
  ⟨c4_replace_whole_double_upsert.1 emptyStore bW1 bW2 5 6 (by decide)
      (by decide) (by decide) (by decide),
   c4_replace_whole_double_upsert.2.1 emptyStore txW1 txW2 5 6 (by decide)
      (by decide) (by decide) (by decide),
   c4_replace_whole_double_upsert.2.2 emptyStore mW1 mW2 (by decide)
      (by decide) (by decide) (by decide)⟩

/-- Claim C5 counterexample: a transaction with a milliseconds-unit
timestamp whose normalized value is far older than the cutoff of
clearOldData(1) at clock 2e9 survives the sweep (the code compares the
raw timestamp, so a milliseconds value always exceeds the seconds-unit
cutoff); the claim predicts its removal. -/
theorem c5_ms_timestamp_survives_cex :
    normTs msTx.timestamp < c5Now - 1 * 3600 ∧
    c5Store.hyperliquidTransactions.length = 1 ∧
    c5After.hyperliquidTransactions.length = 1 ∧
    (c5After.transactionsByHash "m1").isSome = true := by
  decide

/-- Claim C5 amended: clearOldData(hoursOld) filters the block,
transaction, validator, vault and transfer collections by the raw
timestamp (no milliseconds normalization) against
now - hoursOld * 3600, leaves markets, trades and orderbooks untouched,
and rebuilds the secondary indexes from the survivors, so a key lookup
succeeds exactly when a surviving record carries that key. -/
theorem c5_clear_old_raw_cutoff :
    ∀ (s : Store) (hoursOld now : Int),
      ((s.clearOldData hoursOld now).1.blocks =
          s.blocks.filter
            (fun b => decide (b.timestamp ≥ now - hoursOld * 3600))) ∧
      ((s.clearOldData hoursOld now).1.hyperliquidTransactions =
          s.hyperliquidTransactions.filter
            (fun tx => decide (tx.timestamp ≥ now - hoursOld * 3600))) ∧
      ((s.clearOldData hoursOld now).1.validators =
          s.validators.filter
            (fun v => decide (v.timestamp ≥ now - hoursOld * 3600))) ∧
      ((s.clearOldData hoursOld now).1.vaults =
          s.vaults.filter
            (fun v => decide (v.timestamp ≥ now - hoursOld * 3600))) ∧
      ((s.clearOldData hoursOld now).1.transfers =
          s.transfers.filter
            (fun t => decide (t.timestamp ≥ now - hoursOld * 3600))) ∧
      ((s.clearOldData hoursOld now).1.markets = s.markets) ∧
      ((s.clearOldData hoursOld now).1.trades = s.trades) ∧
      ((s.clearOldData hoursOld now).1.orderbooks = s.orderbooks) ∧
      (∀ k : Int, ((s.clearOldData hoursOld now).1.blocksByNumber k).isSome ↔
          ∃ b ∈ (s.clearOldData hoursOld now).1.blocks, b.blockNumber = k) ∧
      (∀ h : String,
          ((s.clearOldData hoursOld now).1.transactionsByHash h).isSome ↔
          ∃ tx ∈ (s.clearOldData hoursOld now).1.hyperliquidTransactions,
            tx.hash = h) ∧
      (∀ a : String,
          ((s.clearOldData hoursOld now).1.validatorsByAddress a).isSome ↔
          ∃ v ∈ (s.clearOldData hoursOld now).1.validators, v.address = a) ∧
      (∀ a : String,
          ((s.clearOldData hoursOld now).1.vaultsByAddress a).isSome ↔
          ∃ v ∈ (s.clearOldData hoursOld now).1.vaults, v.address = a) ∧
      (∀ h : String,
          ((s.clearOldData hoursOld now).1.transfersByHash h).isSome ↔
          ∃ t ∈ (s.clearOldData hoursOld now).1.transfers, t.hash = h) := by
  intro s hoursOld now
  refine ⟨rfl, rfl, rfl, rfl, rfl, rfl, rfl, rfl, ?_, ?_, ?_, ?_, ?_⟩
  · intro k
    exact buildMap_isSome_iff (fun b : BlockData => b.blockNumber)
      (s.blocks.filter
        (fun b => decide (b.timestamp ≥ now - hoursOld * 3600))) k
  · intro h
    exact buildMap_isSome_iff (fun tx : HyperliquidTransaction => tx.hash)
      (s.hyperliquidTransactions.filter
        (fun tx => decide (tx.timestamp ≥ now - hoursOld * 3600))) h
  · intro a
    exact buildMap_isSome_iff (fun v : Validator => v.address)
      (s.validators.filter
        (fun v => decide (v.timestamp ≥ now - hoursOld * 3600))) a
  · intro a
    exact buildMap_isSome_iff (fun v : Vault => v.address)
      (s.vaults.filter
        (fun v => decide (v.timestamp ≥ now - hoursOld * 3600))) a
  · intro h
    exact buildMap_isSome_iff (fun t : Transfer => t.hash)
      (s.transfers.filter
        (fun t => decide (t.timestamp ≥ now - hoursOld * 3600))) h

/-- Claim C6 counterexample: with heights 100..105 existing fresh and
106 unavailable, the probe from startFrom = 99 does return 105, but it
performs 7 fetch calls (100 through 106), not at most 6: the probe
cannot learn that 105 is the frontier without also fetching 106. -/
theorem c6_probe_seven_calls_cex :
    probeFrom (fetchC6 999990) 1000000 99 = (105, 7) ∧
    ¬ (probeFrom (fetchC6 999990) 1000000 99).2 ≤ 6 := by
  decide

/-- Claim C6 amended: for any clock and any fresh block time, the probe
from startFrom = 99 over the heights-100..105-exist source returns
frontier 105 and performs exactly 7 fetch calls. -/
theorem c6_probe_frontier_and_call_count :
    ∀ (now ts : Int), now - ts < 2 * 3600 → now - ts ≥ -3600 →
      probeFrom (fetchC6 ts) now 99 = (105, 7) := by
  intro now ts h1 h2
  have f : ∀ k : Int, 100 ≤ k → k ≤ 105 → fetchC6 ts k = .success ts := by
    intro k hk1 hk2
    simp [fetchC6, hk1, hk2]
  have f7 : fetchC6 ts 106 = .nullResult := by
    norm_num [fetchC6]
  unfold probeFrom
  show probeAux (fetchC6 ts) now 30 100 99 0 = (105, 7)
  rw [probeAux_step_fresh _ _ _ _ _ _ ts (f 100 (by norm_num) (by norm_num))
    h1 h2]
  show probeAux (fetchC6 ts) now 29 101 100 1 = (105, 7)
  rw [probeAux_step_fresh _ _ _ _ _ _ ts (f 101 (by norm_num) (by norm_num))
    h1 h2]
  show probeAux (fetchC6 ts) now 28 102 101 2 = (105, 7)
  rw [probeAux_step_fresh _ _ _ _ _ _ ts (f 102 (by norm_num) (by norm_num))
    h1 h2]
  show probeAux (fetchC6 ts) now 27 103 102 3 = (105, 7)
  rw [probeAux_step_fresh _ _ _ _ _ _ ts (f 103 (by norm_num) (by norm_num))
    h1 h2]
  show probeAux (fetchC6 ts) now 26 104 103 4 = (105, 7)
  rw [probeAux_step_fresh _ _ _ _ _ _ ts (f 104 (by norm_num) (by norm_num))
    h1 h2]
  show probeAux (fetchC6 ts) now 25 105 104 5 = (105, 7)
  rw [probeAux_step_fresh _ _ _ _ _ _ ts (f 105 (by norm_num) (by norm_num))
    h1 h2]
  show probeAux (fetchC6 ts) now 24 106 105 6 = (105, 7)
  rw [probeAux_step_null _ _ _ _ _ _ f7]

/-- Claim C6 amended witness at a concrete fresh clock. -/
theorem c6_probe_frontier_and_call_count_witness :
    ((1000000 : Int) - 999990 < 2 * 3600) ∧
    ((1000000 : Int) - 999990 ≥ -3600) ∧
    probeFrom (fetchC6 999990) 1000000 99 = (105, 7) :=
  ⟨by norm_num, by norm_num,
   c6_probe_frontier_and_call_count 1000000 999990 (by norm_num)
     (by norm_num)⟩

/-- Claim C7 counterexample: inserting a transfer dated far in the
future of the clock, the mutated recent view holds it (insertTransfer
checks only the lower window bound), while the windowed projection of
the primary collection (one-hour window, one-hour future skew, as used
by the full rebuild) excludes it — so after this mutation the view does
not equal the projection. -/
theorem c7_recent_view_diverges_cex :
    c7Store.recentTransfers = [{ futureTransfer with id := some 1 }] ∧
    specRecentView (fun t => t.timestamp) c7Store.transfers c7Now
        3600 3600 = [] ∧
    ¬ c7Store.recentTransfers =
        specRecentView (fun t => t.timestamp) c7Store.transfers c7Now
          3600 3600 := by
  decide

/-- Claim C7 amended: the recent views equal the windowed projection
(raw timestamps, window [now-3600, now+3600], newest-first) exactly
after a full index rebuild — the state produced at load and by
clearOldData — not after every mutation: incremental inserts enforce
only the lower window bound on the touched record, never evict aged
entries, and cap the transfers view at 1000. -/
theorem c7_views_equal_projection_after_rebuild :
    ∀ (s : Store) (now : Int),
      (s.buildIndexes now).recentBlocks =
          specRecentView (fun b => b.timestamp) s.blocks now 3600 3600 ∧
      (s.buildIndexes now).recentTransactions =
          specRecentView (fun tx => tx.timestamp) s.hyperliquidTransactions
            now 3600 3600 ∧
      (s.buildIndexes now).recentValidators =
          specRecentView (fun v => v.timestamp) s.validators now 3600 3600 ∧
      (s.buildIndexes now).recentVaults =
          specRecentView (fun v => v.timestamp) s.vaults now 3600 3600 ∧
      (s.buildIndexes now).recentTransfers =
          specRecentView (fun t => t.timestamp) s.transfers now 3600 3600 :=
  fun _ _ => ⟨rfl, rfl, rfl, rfl, rfl⟩

lemma runStage_ok (i : Nat) (body : Except String Unit) (t : List Nat) :
    runStage i body t = .ok (t ++ [i]) := by
  unfold runStage jsTryCatch
  cases body <;> rfl

/-- Claim C8: one sync cycle never raises to its caller for any
combination of stage-body outcomes, every stage still runs whatever the
earlier stages did (each stage swallows its own failure), and within the
per-record loop a failing record is skipped while the records after it
are still processed. -/
theorem c8_cycle_never_raises_runs_all :
    (∀ o : CycleOutcomes, indexCycle o =
        .ok ((if o.cleanupDraw then [0] else []) ++ [1, 2, 3, 4, 5, 6, 7])) ∧
    (∀ (α β : Type) (f : α → Except String β) (xs ys : List α) (y : α)
        (e : String), f y = .error e →
        processRecords f (xs ++ y :: ys) = processRecords f (xs ++ ys)) := by
  constructor
  · intro o
    cases h : o.cleanupDraw <;> simp only [indexCycle, runStage_ok, h] <;> rfl
  · intro α β f xs ys y e hf
    induction xs with
    | nil => simp [processRecords, hf]
    | cons a l ih =>
      cases hfa : f a <;> simp [processRecords, hfa, ih]

/-- Claim C8 witness: a cycle with three failing stage bodies completes
with every stage executed, and the per-record loop over [1, 2, 3] with
record 2 failing equals the loop over [1, 3]. -/
theorem c8_cycle_never_raises_runs_all_witness :
    indexCycle c8Outcomes = .ok [0, 1, 2, 3, 4, 5, 6, 7] ∧
    processRecords c8f ([1] ++ 2 :: [3]) = processRecords c8f ([1] ++ [3]) :=
  ⟨c8_cycle_never_raises_runs_all.1 c8Outcomes,
   c8_cycle_never_raises_runs_all.2 Nat Nat c8f [1] [3] 2 "boom" rfl⟩

/-- Claim C9: re-inserting a Transfer whose hash is indexed, or a Trade
whose (symbol, timestamp, txHash) composite already occurs, is a
no-op: the entire store — collections, indexes, recent views and next-id
counters — is unchanged. -/
theorem c9_idempotent_reinsert :
    (∀ (s : Store) (t : Transfer) (now : Int),
        ¬ s.transfersByHash t.hash = none → s.insertTransfer t now = s) ∧
    (∀ (s : Store) (t : Trade),
        (∃ u ∈ s.trades, u.symbol = t.symbol ∧ u.timestamp = t.timestamp ∧
          u.txHash = t.txHash) → s.insertTrade t = s) := by
  constructor
  · intro s t now h
    unfold Store.insertTransfer
    split
    · rfl
    · rename_i heq
      exact absurd heq h
  · intro s t h
    unfold Store.insertTrade
    have ha : s.trades.any (fun u => decide (u.symbol = t.symbol ∧
        u.timestamp = t.timestamp ∧ u.txHash = t.txHash)) = true := by
      rw [List.any_eq_true]
      obtain ⟨u, hu, h1, h2, h3⟩ := h
      exact ⟨u, hu, by simp [h1, h2, h3]⟩
    rw [if_pos ha]

/-- Claim C9 witness at concrete one-element stores. -/
theorem c9_idempotent_reinsert_witness :
    c9TransferStore.insertTransfer trWit 10000 = c9TransferStore ∧
    c9TradeStore.insertTrade tdWit = c9TradeStore :=
  ⟨c9_idempotent_reinsert.1 c9TransferStore trWit 10000 (by decide),
   c9_idempotent_reinsert.2 c9TradeStore tdWit
     ⟨{ tdWit with id := some 1 }, by decide, by decide, by decide,
       by decide⟩⟩

/-- Claim C10: getLatestBlock returns none exactly when the block
collection is empty (given the cached recent view is empty whenever the
collection is); with an empty recent view but non-empty collection it
returns the block with the greatest blockNumber; with a non-empty recent
view it returns that view's head — which, as the closing concrete store
shows, need not be the block with the greatest blockNumber. -/
theorem c10_getLatestBlock_characterization :
    (∀ s : Store, (s.blocks = [] → s.recentBlocks = []) →
        (s.getLatestBlock = none ↔ s.blocks = [])) ∧
    (∀ s : Store, s.recentBlocks = [] → ¬ s.blocks = [] →
        ∃ b, s.getLatestBlock = some b ∧ b ∈ s.blocks ∧
          ∀ x ∈ s.blocks, x.blockNumber ≤ b.blockNumber) ∧
    (∀ s : Store, ¬ s.recentBlocks = [] →
        s.getLatestBlock = s.recentBlocks.head?) ∧
    (sTwo.getLatestBlock.map (fun b => b.blockNumber) = some 2 ∧
      ∃ b ∈ sTwo.blocks, (2 : Int) < b.blockNumber) := by
  refine ⟨?_, ?_, ?_, by decide⟩
  · intro s hcons
    unfold Store.getLatestBlock
    cases hr : s.recentBlocks with
    | cons r rs =>
      constructor
      · intro h
        exact absurd h (by simp)
      · intro hb
        rw [hcons hb] at hr
        exact absurd hr (by simp)
    | nil =>
      cases hb : s.blocks with
      | nil => simp
      | cons b bs => simp [hb]
  · intro s hr hb
    unfold Store.getLatestBlock
    rw [hr]
    cases hbk : s.blocks with
    | nil => exact absurd hbk hb
    | cons b bs =>
      obtain ⟨hmem, _, hall⟩ := foldl_pickLatest b bs
      refine ⟨bs.foldl pickLatest b, rfl, ?_, ?_⟩
      · exact hmem
      · intro x hx
        rcases List.mem_cons.mp hx with rfl | hxl
        · exact (foldl_pickLatest x bs).2.1
        · exact hall x hxl
  · intro s hr
    unfold Store.getLatestBlock
    cases hc : s.recentBlocks with
    | nil => exact absurd hc hr
    | cons r rs => rfl

/-- Claim C10 witness for the three conditional components. -/
theorem c10_getLatestBlock_characterization_witness :
    (emptyStore.getLatestBlock = none ↔ emptyStore.blocks = []) ∧
    (∃ b, sStale.getLatestBlock = some b ∧ b ∈ sStale.blocks ∧
      ∀ x ∈ sStale.blocks, x.blockNumber ≤ b.blockNumber) ∧
    sTwo.getLatestBlock = sTwo.recentBlocks.head? :=
  ⟨c10_getLatestBlock_characterization.1 emptyStore (fun _ => rfl),
   c10_getLatestBlock_characterization.2.1 sStale (by decide) (by decide),
   c10_getLatestBlock_characterization.2.2.1 sTwo (by decide)⟩
